import Mathlib

/-!
Verification of the weekly issue-aggregation pipeline of `daytona_issues.py`.

The script fetches GitHub issues page by page, filters out pull requests,
buckets issues by the calendar week (Monday start) of their creation and of
their closure, outer-joins the two weekly series, drops rows whose week-start
year is before 2000, and sorts by week.

Embedding choices:
* Timestamps are modelled at day granularity as `Int` day indices counted from
  1970-01-01 (day 0, a Thursday).  Week bucketing (`to_period('W').start_time`)
  depends only on the calendar day of a timestamp, so this granularity is
  faithful for every property below; `time.sleep` durations are whole seconds.
* `pd.DataFrame(list_of_dicts)` derives its columns from the dict keys, so the
  frame built from an empty issue list has no columns at all.  A `DataFrame`
  value therefore records column presence explicitly.
* Network calls are modelled by passing the outcome of each request
  (`ReqOutcome`): either a completed response or a raised
  `requests.RequestException`.  A Python exception propagating out of a
  function is an `Except.error`.
* `groupby(...).size().reset_index()` returns one row per distinct key, sorted
  ascending, with `NaT` keys dropped; `sort_values` is modelled by insertion
  sort (any correct ascending sort agrees on the key-distinct tables produced
  here).  The pandas outer merge produces the matched/left-only rows (from the
  opened series) plus the right-only rows, whose null `week` entry `fillna(0)`
  turns into the epoch timestamp 1970-01-01 (day 0).
-/

instance {ε α : Type} [DecidableEq ε] [DecidableEq α] : DecidableEq (Except ε α) := fun a b =>
  match a, b with
  | .error e, .error f => decidable_of_iff (e = f) (by simp)
  | .error _, .ok _ => isFalse (fun h => nomatch h)
  | .ok _, .error _ => isFalse (fun h => nomatch h)
  | .ok x, .ok y => decidable_of_iff (x = y) (by simp)

/-- Start (Monday) of the calendar week containing day `d`
(`to_period('W').start_time`); day 0 = 1970-01-01 is a Thursday. -/
def mondayOf (d : Int) : Int := d - (d + 3) % 7

/-- Gregorian year of the day index `d` (`Timestamp.year`), via the standard
civil-from-days computation; all divisions act on non-negative values for every
day index after year -4716. -/
def civilYear (d : Int) : Int :=
  let z := d + 719468
  let era := (if 0 ≤ z then z else z - 146096) / 146097
  let doe := z - era * 146097
  let yoe := (doe - doe / 1460 + doe / 36524 - doe / 146096) / 365
  let y := yoe + era * 400
  let doy := doe - (365 * yoe + yoe / 4 - yoe / 100)
  let mp := (5 * doy + 2) / 153
  let m := if mp < 10 then mp + 3 else mp - 9
  if m ≤ 2 then y + 1 else y

/-- One `groupby(key).size().reset_index()` table: one `(key, count)` row per
distinct key of `l`, keys sorted ascending. -/
def groupCount (l : List Int) : List (Int × Nat) :=
  (List.insertionSort (fun a b => a ≤ b) l.dedup).map (fun w => (w, l.count w))

/-- Outcome of one `requests.get` call: a completed response, or a raised
`requests.RequestException` (connection error, timeout, ...). -/
inductive ReqOutcome (α : Type) where
  | success : α → ReqOutcome α
  | failure : String → ReqOutcome α
deriving DecidableEq

/-- Payload of the `/rate_limit` endpoint used by `check_rate_limit`. -/
structure RateLimitResponse where
  statusCode : Nat
  /-- `data['resources']['core']['remaining']` -/
  remaining : Nat
  /-- `data['resources']['core']['reset']`, epoch seconds -/
  reset : Int
deriving DecidableEq

/-- Embedding of `check_rate_limit()`.  `now` is the current epoch second.
`Except.error` models an exception propagating to the caller (the
`requests.get` call is not wrapped in `try`, and `time.sleep` raises
`ValueError` on a negative duration).  `Except.ok (some w)` means the caller
was suspended for `w` seconds; `Except.ok none` means it returned at once
(including the non-200 "Failed to check rate limit." branch, which only
prints). -/
def check_rate_limit (outcome : ReqOutcome RateLimitResponse) (now : Int) :
    Except String (Option Int) :=
  match outcome with
  | .failure msg => .error msg
  | .success resp =>
    if resp.statusCode = 200 then
      if resp.remaining < 10 then
        let wait_time := resp.reset - now
        if wait_time + 1 < 0 then .error "sleep length must be non-negative"
        else .ok (some (wait_time + 1))
      else .ok none
    else .ok none

/-- Payload of the repository-metadata endpoint used by `fetch_forks`. -/
structure RepoResponse where
  statusCode : Nat
  /-- the `forks_count` field of the JSON body, when present -/
  forksCount : Option Int
deriving DecidableEq

/-- Embedding of `fetch_forks()`.  The rate-limit guard runs before the `try`
block, so its exceptions propagate; inside the `try`, a raised request
exception or an HTTP error status (`raise_for_status`, 4xx/5xx) is caught and
yields `0`; a missing `forks_count` key defaults to `0` via `.get`. -/
def fetch_forks (rl : ReqOutcome RateLimitResponse) (now : Int)
    (repoReq : ReqOutcome RepoResponse) : Except String Int :=
  match check_rate_limit rl now with
  | .error e => .error e
  | .ok _ =>
    match repoReq with
    | .failure _ => .ok 0
    | .success resp =>
      if 400 ≤ resp.statusCode then .ok 0
      else .ok (resp.forksCount.getD 0)

/-- One raw record of the issue-listing endpoint.  GitHub marks pull requests
by the presence of a `pull_request` key on the record. -/
structure RawIssue where
  hasPullRequestKey : Bool
  createdAt : Int
  state : String
  closedAt : Option Int
deriving DecidableEq

/-- One page of the issue-listing endpoint. -/
structure PageResponse where
  statusCode : Nat
  items : List RawIssue
  /-- whether `'next' in response.links` -/
  hasNext : Bool
deriving DecidableEq

/-- Environment of one iteration of the pagination loop: the outcome of the
rate-limit guard's quota request, the current time at that iteration, and the
outcome of the page request itself. -/
structure PageFetch where
  rl : ReqOutcome RateLimitResponse
  now : Int
  page : ReqOutcome PageResponse
deriving DecidableEq

/-- The list-comprehension filter of `fetch_issues`: keep records without the
`pull_request` marker key. -/
def keepIssue (it : RawIssue) : Bool := !it.hasPullRequestKey

/-- The pagination loop of `fetch_issues`, threading the accumulated issue
list.  An exhausted environment list (no further responses available) ends the
run with what was accumulated; every terminating branch of the Python loop
(`break` on request failure, on an HTTP error status, on an empty page, or on
a missing `next` link) is reached before that within any complete trace. -/
def fetchIssuesGo : List PageFetch → List RawIssue → Except String (List RawIssue)
  | [], issues => .ok issues
  | pf :: rest, issues =>
    match check_rate_limit pf.rl pf.now with
    | .error e => .error e
    | .ok _ =>
      match pf.page with
      | .failure _ => .ok issues
      | .success resp =>
        if 400 ≤ resp.statusCode then .ok issues
        else if resp.items.length = 0 then .ok issues
        else
          let issues' := issues ++ resp.items.filter keepIssue
          if resp.hasNext = false then .ok issues'
          else fetchIssuesGo rest issues'

/-- Embedding of `fetch_issues(state, since)`: run the pagination loop against
the given trace of per-page environments, starting from an empty accumulator.
(The `state`/`since` parameters only shape the request URL, not the control
flow modelled here.) -/
def fetch_issues (pages : List PageFetch) : Except String (List RawIssue) :=
  fetchIssuesGo pages []

/-- The non-pull-request records contributed by one successfully fetched,
non-empty page. -/
def pageIssues (pf : PageFetch) : List RawIssue :=
  match pf.page with
  | .success resp => resp.items.filter keepIssue
  | .failure _ => []

/-- A loop iteration that accumulates its page and continues to the next one:
guard returned normally, request succeeded with a non-error status, the page
was non-empty, and a `next` link is present. -/
def pageAdvances (pf : PageFetch) : Bool :=
  (check_rate_limit pf.rl pf.now).isOk &&
    match pf.page with
    | .failure _ => false
    | .success resp =>
      decide (resp.statusCode < 400) && !resp.items.isEmpty && resp.hasNext

/-- One issue as it enters the aggregation stage (after `parse_dates`):
creation day, `state` string, optional closure day. -/
structure Issue where
  createdAt : Int
  state : String
  closedAt : Option Int
deriving DecidableEq

/-- One row of the assembled pandas frame; `week` is the column added in place
by `weekly_analysis`. -/
structure IssueRow where
  createdAt : Int
  state : String
  closedAt : Option Int
  week : Option Int
deriving DecidableEq

/-- The assembled frame.  `pd.DataFrame(list_of_dicts)` takes its columns from
the union of the dict keys, so the flags record whether each column exists:
the frame of an empty issue list has no columns. -/
structure DataFrame where
  hasCreatedAt : Bool
  hasState : Bool
  hasClosedAt : Bool
  rows : List IssueRow
deriving DecidableEq

/-- `pd.DataFrame(issues)`: every fetched GitHub issue record carries
`created_at`, `state` and `closed_at` keys, so the columns exist exactly when
the list is non-empty. -/
def mkFrame (issues : List Issue) : DataFrame :=
  { hasCreatedAt := !issues.isEmpty
    hasState := !issues.isEmpty
    hasClosedAt := !issues.isEmpty
    rows := issues.map (fun i => ⟨i.createdAt, i.state, i.closedAt, none⟩) }

/-- One row of the aggregated table (week start, `issues_opened`,
`issues_closed`, both `astype(int)`). -/
structure WeekBucket where
  week : Int
  issues_opened : Int
  issues_closed : Int
deriving DecidableEq

/-- The opened series: group the rows by creation week and count
(`df.groupby('week').size()`). -/
def openedSeries (rows : List IssueRow) : List (Int × Nat) :=
  groupCount (rows.map (fun r => mondayOf r.createdAt))

/-- The closed series: restrict to `state == 'closed'`, bucket by closure
week, group and count.  A missing `closed_at` becomes `NaT`, whose group key
`groupby` drops. -/
def closedSeries (rows : List IssueRow) : List (Int × Nat) :=
  groupCount ((rows.filter (fun r => r.state == "closed")).filterMap
    (fun r => r.closedAt.map mondayOf))

/-- The outer merge of the two series followed by `fillna(0)`: one row per
opened week carrying the matching closed count (or 0), plus one row per
closed-only week whose null week entry `fillna(0)` turns into the epoch day 0
(1970-01-01) and whose opened count becomes 0. -/
def mkBuckets (opened closed : List (Int × Nat)) : List WeekBucket :=
  opened.map (fun p => ⟨p.1, (p.2 : Int), (((closed.lookup p.1).getD 0 : Nat) : Int)⟩)
    ++ (closed.filter (fun p => (opened.lookup p.1).isNone)).map
        (fun p => ⟨0, 0, (p.2 : Int)⟩)

/-- The defensive filter `weekly_combined['week'].dt.year >= 2000`. -/
def yearFilter (t : List WeekBucket) : List WeekBucket :=
  t.filter (fun b => decide (2000 ≤ civilYear b.week))

/-- `sort_values('week')`: ascending sort on the week column. -/
def sortByWeek (t : List WeekBucket) : List WeekBucket :=
  List.insertionSort (fun a b => a.week ≤ b.week) t

/-- Embedding of `weekly_analysis(df)`.  It checks for the `created_at`
column, converts it (`pd.to_datetime`, the identity on the already-parsed
values), adds the `week` column in place, builds the two weekly series, outer
merges them with `fillna(0)`, drops pre-2000 week rows, sorts by week and
returns the table together with the mutated frame; a missing column raises a
`KeyError` (`Except.error`). -/
def weekly_analysis (df : DataFrame) : Except String (DataFrame × List WeekBucket) :=
  if df.hasCreatedAt = false then
    .error "created_at column not found in DataFrame"
  else
    let rows := df.rows.map (fun r => { r with week := some (mondayOf r.createdAt) })
    if df.hasState = false then
      .error "state"
    else if df.hasClosedAt = false then
      .error "closed_at column not found in closed_issues DataFrame"
    else
      let table := sortByWeek (yearFilter (mkBuckets (openedSeries rows) (closedSeries rows)))
      .ok ({ df with rows := rows }, table)

/-- The aggregation as run by `main`: assemble the frame from the fetched
issues and run `weekly_analysis`, keeping the returned table. -/
def aggregateIssues (issues : List Issue) : Except String (List WeekBucket) :=
  (weekly_analysis (mkFrame issues)).map (·.2)

/-- `weekly_combined['issues_opened'].sum()`. -/
def totalOpened (t : List WeekBucket) : Int := (t.map (·.issues_opened)).sum

/-- `weekly_combined['issues_closed'].sum()`. -/
def totalClosed (t : List WeekBucket) : Int := (t.map (·.issues_closed)).sum

/-- Whether issue `i` was created within the 7-day span starting at `w`. -/
def createdInWeek (w : Int) (i : Issue) : Bool :=
  decide (w ≤ i.createdAt) && decide (i.createdAt < w + 7)

/-- Whether issue `i` is closed and its closure timestamp falls within the
7-day span starting at `w`. -/
def closedInWeek (w : Int) (i : Issue) : Bool :=
  i.state == "closed" &&
    match i.closedAt with
    | some t => decide (w ≤ t) && decide (t < w + 7)
    | none => false

/-- Creation-week key of each issue: the multiset grouped into the opened
series. -/
def weeksOpened (issues : List Issue) : List Int :=
  issues.map (fun i => mondayOf i.createdAt)

/-- Closure-week key of each closed issue: the multiset grouped into the
closed series. -/
def weeksClosed (issues : List Issue) : List Int :=
  (issues.filter (fun i => i.state == "closed")).filterMap (fun i => i.closedAt.map mondayOf)

/-- Row of an issue after the in-place `week` column assignment. -/
def rowOf (i : Issue) : IssueRow :=
  ⟨i.createdAt, i.state, i.closedAt, some (mondayOf i.createdAt)⟩

/-- The table `weekly_analysis` produces for a non-empty issue list. -/
def tableOf (issues : List Issue) : List WeekBucket :=
  sortByWeek (yearFilter
    (mkBuckets (groupCount (weeksOpened issues)) (groupCount (weeksClosed issues))))

/-! ### Claims about the rate-limit guard and the fork-count fetch -/

/-- C1, counterexample: for the empty issue sequence the assembled frame has
no columns at all, so `weekly_analysis` raises
`KeyError("'created_at' column not found in DataFrame")` instead of returning
an empty table. -/
theorem aggregate_empty_raises :
    aggregateIssues [] = Except.error "created_at column not found in DataFrame" := by
  decide

/-- C1 (amended): on the empty issue sequence the aggregation raises a
`KeyError` because the empty frame lacks the `created_at` column; an empty
frame that does carry the expected columns yields an empty table, with both
totals zero and no error. -/
theorem aggregate_empty_frame_with_columns_ok :
    weekly_analysis ⟨true, true, true, []⟩ = Except.ok (⟨true, true, true, []⟩, []) ∧
    totalOpened [] = 0 ∧ totalClosed [] = 0 := by
  refine ⟨by decide, rfl, rfl⟩

/-- C4, counterexample: the guard's own `requests.get` is not wrapped in a
`try` block, so a network-level failure of the quota request propagates to the
caller rather than being logged and tolerated. -/
theorem check_rate_limit_network_failure_raises :
    (check_rate_limit (.failure "connection error") 0).isOk = false := by
  decide

/-- C4 (amended): an exception raised by the quota request itself propagates
to the guard's caller; when the request completes, a non-200 status or a
remaining quota of at least 10 makes the guard return at once without raising
and without blocking. -/
theorem check_rate_limit_amended (o : ReqOutcome RateLimitResponse) (now : Int) :
    (∀ msg, o = .failure msg → check_rate_limit o now = .error msg) ∧
    (∀ resp, o = .success resp → (resp.statusCode ≠ 200 ∨ 10 ≤ resp.remaining) →
      check_rate_limit o now = .ok none) := by
  constructor
  · rintro msg rfl
    rfl
  · rintro resp rfl h
    by_cases hs : resp.statusCode = 200
    · rcases h with h | h
      · exact absurd hs h
      · simp [check_rate_limit, hs, Nat.not_lt.mpr h]
    · simp [check_rate_limit, hs]

/-- Witness for `check_rate_limit_amended` at a completed 503 response. -/
theorem check_rate_limit_amended_witness :
    check_rate_limit (.success ⟨503, 0, 0⟩) 5 = Except.ok none :=
  (check_rate_limit_amended (.success ⟨503, 0, 0⟩) 5).2 ⟨503, 0, 0⟩ rfl (Or.inl (by decide))

/-- C5, counterexample: when the reported reset time is more than one second
in the past, `time.sleep` receives a negative duration and raises
`ValueError`, so the guard does not suspend for `(reset - now) + 1` seconds
and return; here `remaining = 5`, `reset = 0`, `now = 2`. -/
theorem check_rate_limit_negative_wait_raises :
    ¬ (check_rate_limit (.success ⟨200, 5, 0⟩) 2 = Except.ok (some (0 - 2 + 1))) := by
  decide

/-- C5 (amended): whenever the quota query completes with status 200, the
remaining quota is below 10 and the computed duration `(reset - now) + 1` is
non-negative, the guard suspends the caller for exactly that duration before
returning; a reset more than one second in the past instead makes the sleep
call raise `ValueError`. -/
theorem check_rate_limit_wait_exact (resp : RateLimitResponse) (now : Int)
    (hs : resp.statusCode = 200) (hr : resp.remaining < 10)
    (hw : 0 ≤ resp.reset - now + 1) :
    check_rate_limit (.success resp) now = Except.ok (some (resp.reset - now + 1)) := by
  have hneg : ¬ (resp.reset - now + 1 < 0) := by omega
  simp [check_rate_limit, hs, hr, hneg]

/-- Witness for `check_rate_limit_wait_exact`: the spec's example
`remaining = 5`, `reset = now + 30s` blocks for 31 seconds. -/
theorem check_rate_limit_wait_exact_witness :
    check_rate_limit (.success ⟨200, 5, 30⟩) 0 = Except.ok (some 31) :=
  check_rate_limit_wait_exact ⟨200, 5, 30⟩ 0 rfl (by decide) (by decide)

/-- C6, counterexample: `fetch_forks` calls the rate-limit guard before its
`try` block, so a network failure inside the guard's quota request propagates
out of `fetch_forks` instead of yielding the 0 default. -/
theorem fetch_forks_guard_failure_raises :
    (fetch_forks (.failure "connection error") 0 (.success ⟨200, some 120⟩)).isOk = false := by
  decide

/-- C6 (amended): provided the rate-limit guard returns normally,
`fetch_forks` never raises, and any error of the metadata request itself — a
raised request exception or an HTTP error status — yields the integer 0; an
exception escaping the guard, however, propagates to the caller. -/
theorem fetch_forks_amended (rl : ReqOutcome RateLimitResponse) (now : Int)
    (rr : ReqOutcome RepoResponse) (hrl : (check_rate_limit rl now).isOk = true) :
    (fetch_forks rl now rr).isOk = true ∧
    (∀ msg, rr = .failure msg → fetch_forks rl now rr = Except.ok 0) ∧
    (∀ resp, rr = .success resp → 400 ≤ resp.statusCode →
      fetch_forks rl now rr = Except.ok 0) := by
  obtain ⟨w, hw⟩ : ∃ w, check_rate_limit rl now = Except.ok w := by
    cases h : check_rate_limit rl now with
    | error e => rw [h] at hrl; exact Bool.noConfusion hrl
    | ok w => exact ⟨w, rfl⟩
  refine ⟨?_, ?_, ?_⟩
  · cases rr with
    | failure m => simp [fetch_forks, hw, Except.isOk, Except.toBool]
    | success resp =>
      by_cases hc : 400 ≤ resp.statusCode <;>
        simp [fetch_forks, hw, hc, Except.isOk, Except.toBool]
  · rintro msg rfl
    simp [fetch_forks, hw]
  · rintro resp rfl hc
    simp [fetch_forks, hw, hc]

/-- Witness for `fetch_forks_amended`: a timed-out metadata request yields 0. -/
theorem fetch_forks_amended_witness :
    fetch_forks (.success ⟨200, 5000, 0⟩) 0 (.failure "timeout") = Except.ok 0 :=
  (fetch_forks_amended (.success ⟨200, 5000, 0⟩) 0 (.failure "timeout")
    (by decide)).2.1 "timeout" rfl

/-! ### Claims about the issue fetcher -/

/-- Inner induction for C7: while every earlier iteration accumulates its page
and continues, reaching an iteration whose guard returns normally but whose
page request raises ends the loop with exactly the accumulator built so far. -/
theorem fetchIssuesGo_stops_at_failure (bad : PageFetch) (rest : List PageFetch)
    (hg : (check_rate_limit bad.rl bad.now).isOk = true)
    (msg : String) (hbad : bad.page = .failure msg) :
    ∀ (good : List PageFetch) (acc : List RawIssue),
      (∀ pf ∈ good, pageAdvances pf = true) →
      fetchIssuesGo (good ++ bad :: rest) acc = Except.ok (acc ++ (good.map pageIssues).flatten) := by
  intro good
  induction good with
  | nil =>
    intro acc _
    obtain ⟨w, hw⟩ : ∃ w, check_rate_limit bad.rl bad.now = Except.ok w := by
      cases h : check_rate_limit bad.rl bad.now with
      | error e => rw [h] at hg; exact Bool.noConfusion hg
      | ok w => exact ⟨w, rfl⟩
    simp [fetchIssuesGo, hw, hbad]
  | cons pf good ih =>
    intro acc hadv
    have hpf : pageAdvances pf = true := hadv pf (List.mem_cons_self pf good)
    have hrest : ∀ q ∈ good, pageAdvances q = true :=
      fun q hq => hadv q (List.mem_cons_of_mem pf hq)
    obtain ⟨w, hw⟩ : ∃ w, check_rate_limit pf.rl pf.now = Except.ok w := by
      cases h : check_rate_limit pf.rl pf.now with
      | error e =>
        rw [pageAdvances, h] at hpf
        exact Bool.noConfusion hpf
      | ok w => exact ⟨w, rfl⟩
    cases hpg : pf.page with
    | failure m =>
      rw [pageAdvances, hpg] at hpf
      simp at hpf
    | success resp =>
      rw [pageAdvances, hpg] at hpf
      have hs : resp.statusCode < 400 := by
        have := (Bool.and_eq_true _ _).mp hpf
        have := (Bool.and_eq_true _ _).mp this.2
        exact of_decide_eq_true ((Bool.and_eq_true _ _).mp this.1).1
      have hne : resp.items.isEmpty = false := by
        have := (Bool.and_eq_true _ _).mp hpf
        have := (Bool.and_eq_true _ _).mp this.2
        have := ((Bool.and_eq_true _ _).mp this.1).2
        simpa using this
      have hnx : resp.hasNext = true := by
        have := (Bool.and_eq_true _ _).mp hpf
        exact ((Bool.and_eq_true _ _).mp this.2).2
      have hlen : ¬ (resp.items.length = 0) := by
        intro h0
        have hnil : resp.items = [] := List.length_eq_zero.mp h0
        rw [hnil] at hne
        exact Bool.noConfusion hne
      have hs' : ¬ (400 ≤ resp.statusCode) := by omega
      rw [List.cons_append, fetchIssuesGo, hw]
      simp only [hpg, if_neg hs', if_neg hlen, hnx]
      rw [if_neg (fun h => Bool.noConfusion h)]
      rw [ih (acc ++ resp.items.filter keepIssue) hrest]
      simp [pageIssues, hpg, List.append_assoc]

/-- C7: if the run reaches a page whose request raises (every earlier page
accumulated normally and each guard call returned), pagination stops there and
the fetcher returns the issues accumulated from the earlier pages, raising
nothing. -/
theorem fetch_issues_partial_on_failure (good : List PageFetch) (bad : PageFetch)
    (rest : List PageFetch) (hadv : ∀ pf ∈ good, pageAdvances pf = true)
    (hg : (check_rate_limit bad.rl bad.now).isOk = true)
    (msg : String) (hbad : bad.page = .failure msg) :
    fetch_issues (good ++ bad :: rest) = Except.ok ((good.map pageIssues).flatten) := by
  rw [fetch_issues, fetchIssuesGo_stops_at_failure bad rest hg msg hbad good [] hadv]
  rfl

/-- Witness for `fetch_issues_partial_on_failure`: one successful page with a
pull request and an issue, then a connection failure; the fetcher returns the
single issue of the first page. -/
theorem fetch_issues_partial_on_failure_witness :
    fetch_issues
      [⟨.success ⟨200, 100, 0⟩, 0, .success ⟨200, [⟨false, 19723, "open", none⟩,
          ⟨true, 19724, "open", none⟩], true⟩⟩,
       ⟨.success ⟨200, 99, 1⟩, 1, .failure "connection error"⟩]
      = Except.ok [⟨false, 19723, "open", none⟩] := by
  have h := fetch_issues_partial_on_failure
    [⟨.success ⟨200, 100, 0⟩, 0, .success ⟨200, [⟨false, 19723, "open", none⟩,
        ⟨true, 19724, "open", none⟩], true⟩⟩]
    ⟨.success ⟨200, 99, 1⟩, 1, .failure "connection error"⟩ []
    (by decide) (by decide) "connection error" rfl
  exact h

/-- Accumulator invariant for C8: the loop only ever appends records that pass
the pull-request filter. -/
theorem fetchIssuesGo_no_pull_requests :
    ∀ (pages : List PageFetch) (acc out : List RawIssue),
      fetchIssuesGo pages acc = Except.ok out →
      (∀ r ∈ acc, r.hasPullRequestKey = false) →
      ∀ r ∈ out, r.hasPullRequestKey = false := by
  intro pages
  induction pages with
  | nil =>
    intro acc out h hacc
    rw [fetchIssuesGo] at h
    cases h
    exact hacc
  | cons pf rest ih =>
    intro acc out h hacc
    rw [fetchIssuesGo] at h
    cases hw : check_rate_limit pf.rl pf.now with
    | error e => rw [hw] at h; exact absurd h (fun hh => nomatch hh)
    | ok w =>
      cases hpg : pf.page with
      | failure m =>
        simp only [hw, hpg] at h
        cases h
        exact hacc
      | success resp =>
        simp only [hw, hpg] at h
        have hacc' : ∀ r ∈ acc ++ resp.items.filter keepIssue, r.hasPullRequestKey = false := by
          intro r hr
          rcases List.mem_append.mp hr with hr | hr
          · exact hacc r hr
          · have := (List.mem_filter.mp hr).2
            rw [keepIssue] at this
            simpa using this
        by_cases hs : 400 ≤ resp.statusCode
        · rw [if_pos hs] at h
          cases h
          exact hacc
        · rw [if_neg hs] at h
          by_cases hlen : resp.items.length = 0
          · rw [if_pos hlen] at h
            cases h
            exact hacc
          · rw [if_neg hlen] at h
            by_cases hnx : resp.hasNext = false
            · rw [if_pos hnx] at h
              cases h
              exact hacc'
            · rw [if_neg hnx] at h
              exact ih _ out h hacc'

/-- C8: whatever the sequence of page responses, no record carrying the
`pull_request` marker field appears in the sequence the fetcher returns, even
when such records are present in the raw listing results. -/
theorem fetch_issues_no_pull_requests (pages : List PageFetch) (out : List RawIssue)
    (h : fetch_issues pages = Except.ok out) :
    ∀ r ∈ out, r.hasPullRequestKey = false :=
  fetchIssuesGo_no_pull_requests pages [] out h (fun r hr => absurd hr (List.not_mem_nil r))

/-- Witness for `fetch_issues_no_pull_requests`: a raw page containing a
pull-request record yields an output whose surviving record is not flagged. -/
theorem fetch_issues_no_pull_requests_witness :
    (⟨false, 19724, "open", none⟩ : RawIssue).hasPullRequestKey = false :=
  fetch_issues_no_pull_requests
    [⟨.success ⟨200, 100, 0⟩, 0, .success ⟨200, [⟨true, 19723, "open", none⟩,
        ⟨false, 19724, "open", none⟩], false⟩⟩]
    [⟨false, 19724, "open", none⟩] (by decide)
    ⟨false, 19724, "open", none⟩ (by decide)

/-! ### Structure of the grouped series -/

/-- Lookup in a table built by pairing each key with a function of itself. -/
theorem lookup_keyMap (f : Int → Nat) (w : Int) :
    ∀ keys : List Int, (keys.map (fun k => (k, f k))).lookup w =
      if w ∈ keys then some (f w) else none := by
  intro keys
  induction keys with
  | nil => rfl
  | cons k ks ih =>
    by_cases hk : w = k
    · subst hk
      simp [List.lookup]
    · have hbeq : (w == k) = false := beq_eq_false_iff_ne.mpr hk
      simp [List.lookup, hbeq, hk, ih]

/-- Rows of a grouped series are exactly the distinct keys paired with their
multiplicities. -/
theorem mem_groupCount {l : List Int} {p : Int × Nat} :
    p ∈ groupCount l ↔ p.1 ∈ l ∧ p.2 = l.count p.1 := by
  unfold groupCount
  rw [List.mem_map]
  constructor
  · rintro ⟨w, hw, rfl⟩
    have hmem : w ∈ l.dedup := ((List.perm_insertionSort _ _).mem_iff).mp hw
    exact ⟨List.mem_dedup.mp hmem, rfl⟩
  · rintro ⟨h1, h2⟩
    refine ⟨p.1, ((List.perm_insertionSort _ _).mem_iff).mpr (List.mem_dedup.mpr h1), ?_⟩
    exact Prod.ext rfl h2.symm

/-- Looking a key up in a grouped series yields its multiplicity when the key
occurs at all, and `none` otherwise. -/
theorem lookup_groupCount (l : List Int) (w : Int) :
    (groupCount l).lookup w = if w ∈ l then some (l.count w) else none := by
  unfold groupCount
  rw [lookup_keyMap]
  by_cases h : w ∈ l
  · rw [if_pos (((List.perm_insertionSort _ _).mem_iff).mpr (List.mem_dedup.mpr h)), if_pos h]
  · rw [if_neg (fun hx => h (List.mem_dedup.mp (((List.perm_insertionSort _ _).mem_iff).mp hx))),
      if_neg h]

/-- Keys of a grouped series are strictly increasing (`groupby` sorts its
distinct keys). -/
theorem groupCount_pairwise (l : List Int) :
    (groupCount l).Pairwise (fun p q => p.1 < q.1) := by
  unfold groupCount
  rw [List.pairwise_map]
  have hsorted : (List.insertionSort (fun a b => a ≤ b) l.dedup).Pairwise (fun a b => a ≤ b) :=
    List.sorted_insertionSort _ _
  have hnodup : (List.insertionSort (fun a b => a ≤ b) l.dedup).Nodup :=
    ((List.perm_insertionSort _ _).nodup_iff).mpr l.nodup_dedup
  exact (hsorted.and hnodup).imp (fun h => lt_of_le_of_ne h.1 h.2)

/-! ### Week arithmetic -/

/-- Week starts are Monday-aligned. -/
theorem mondayOf_mod (d : Int) : (mondayOf d + 3) % 7 = 0 := by
  unfold mondayOf
  omega

/-- A day belongs to the week starting at the Monday-aligned `w` exactly when
it lies in the 7-day span `[w, w + 7)`. -/
theorem mondayOf_eq_iff {w : Int} (hw : (w + 3) % 7 = 0) (d : Int) :
    mondayOf d = w ↔ w ≤ d ∧ d < w + 7 := by
  unfold mondayOf
  omega

/-! ### Counting issues per week -/

/-- Counting after `filterMap` counts the sources whose image satisfies the
predicate. -/
theorem countP_filterMap_eq {α β : Type} (g : α → Option β) (p : β → Bool) :
    ∀ l : List α, (l.filterMap g).countP p =
      l.countP (fun a => match g a with | some b => p b | none => false) := by
  intro l
  induction l with
  | nil => rfl
  | cons x xs ih =>
    cases hx : g x with
    | none => simp [List.filterMap_cons, hx, List.countP_cons, ih]
    | some y => simp [List.filterMap_cons, hx, List.countP_cons, ih]

/-- The multiplicity of a Monday-aligned week among the creation weeks is the
number of issues created in its 7-day span. -/
theorem count_weeksOpened {w : Int} (hw : (w + 3) % 7 = 0) (issues : List Issue) :
    (weeksOpened issues).count w = (issues.filter (createdInWeek w)).length := by
  have hpred : ∀ i : Issue, (mondayOf i.createdAt == w) = createdInWeek w i := by
    intro i
    rw [Bool.eq_iff_iff]
    simp only [beq_iff_eq, createdInWeek, Bool.and_eq_true, decide_eq_true_eq]
    exact mondayOf_eq_iff hw i.createdAt
  rw [weeksOpened, List.count_eq_countP, List.countP_map, List.countP_eq_length_filter]
  congr 1
  apply List.filter_congr
  intro i _
  exact hpred i

/-- The multiplicity of a Monday-aligned week among the closure weeks is the
number of closed issues whose closure timestamp lies in its 7-day span. -/
theorem count_weeksClosed {w : Int} (hw : (w + 3) % 7 = 0) (issues : List Issue) :
    (weeksClosed issues).count w = (issues.filter (closedInWeek w)).length := by
  rw [weeksClosed, List.count_eq_countP, countP_filterMap_eq, List.countP_filter,
    List.countP_eq_length_filter]
  congr 1
  apply List.filter_congr
  intro i _
  cases hc : i.closedAt with
  | none => simp [closedInWeek, hc]
  | some s =>
    simp only [closedInWeek, hc, Option.map_some']
    rw [Bool.and_comm]
    congr 1
    rw [Bool.eq_iff_iff]
    simp only [beq_iff_eq, Bool.and_eq_true, decide_eq_true_eq]
    exact mondayOf_eq_iff hw s

/-! ### Characterizing a run of the aggregator -/

/-- Building the frame rows and then assigning the `week` column produces the
fully evaluated rows. -/
theorem map_mutate_embed (issues : List Issue) :
    (issues.map (fun i => (⟨i.createdAt, i.state, i.closedAt, none⟩ : IssueRow))).map
      (fun r => { r with week := some (mondayOf r.createdAt) }) = issues.map rowOf := by
  rw [List.map_map]
  rfl

/-- Re-assigning the `week` column leaves fully evaluated rows unchanged. -/
theorem map_mutate_rowOf (issues : List Issue) :
    (issues.map rowOf).map (fun r => { r with week := some (mondayOf r.createdAt) }) =
      issues.map rowOf := by
  rw [List.map_map]
  rfl

/-- The opened series of the evaluated rows is the grouped creation weeks. -/
theorem openedSeries_eq (issues : List Issue) :
    openedSeries (issues.map rowOf) = groupCount (weeksOpened issues) := by
  rw [openedSeries, List.map_map]
  rfl

/-- The closed series of the evaluated rows is the grouped closure weeks. -/
theorem closedSeries_eq (issues : List Issue) :
    closedSeries (issues.map rowOf) = groupCount (weeksClosed issues) := by
  rw [closedSeries, List.filter_map, List.filterMap_map]
  rfl

/-- On a non-empty issue list, `weekly_analysis` returns the mutated frame and
the table `tableOf`. -/
theorem weekly_analysis_mkFrame {issues : List Issue} (h : issues ≠ []) :
    weekly_analysis (mkFrame issues) =
      Except.ok (⟨true, true, true, issues.map rowOf⟩, tableOf issues) := by
  have hne : issues.isEmpty = false := by
    cases issues with
    | nil => exact absurd rfl h
    | cons a l => rfl
  simp only [weekly_analysis, mkFrame, hne, Bool.not_false, Bool.true_eq_false, if_false]
  rw [map_mutate_embed, openedSeries_eq, closedSeries_eq, tableOf]

/-- On a non-empty issue list the aggregation returns `tableOf`. -/
theorem aggregateIssues_ok {issues : List Issue} (h : issues ≠ []) :
    aggregateIssues issues = Except.ok (tableOf issues) := by
  rw [aggregateIssues, weekly_analysis_mkFrame h]
  rfl

/-- Any table the aggregation returns is `tableOf` of its input. -/
theorem aggregateIssues_inv {issues : List Issue} {t : List WeekBucket}
    (h : aggregateIssues issues = Except.ok t) : t = tableOf issues := by
  rcases eq_or_ne issues [] with rfl | hne
  · have hval : aggregateIssues ([] : List Issue) =
        Except.error "created_at column not found in DataFrame" := rfl
    rw [hval] at h
    exact absurd h (fun hh => nomatch hh)
  · rw [aggregateIssues_ok hne] at h
    exact ((Except.ok.injEq _ _).mp h).symm

/-- Every row of the final table stems from the opened series: its week is a
creation week with year at least 2000, its opened count is that week's
multiplicity among creation weeks, and its closed count that week's
multiplicity among closure weeks (zero when absent). -/
theorem mem_tableOf {issues : List Issue} {b : WeekBucket} (hb : b ∈ tableOf issues) :
    b.week ∈ weeksOpened issues ∧ 2000 ≤ civilYear b.week ∧
    b.issues_opened = ((weeksOpened issues).count b.week : Int) ∧
    b.issues_closed = ((weeksClosed issues).count b.week : Int) := by
  rw [tableOf, sortByWeek] at hb
  have hb1 := ((List.perm_insertionSort _ _).mem_iff).mp hb
  rw [yearFilter, List.mem_filter] at hb1
  obtain ⟨hb2, hyear⟩ := hb1
  have hyear' : 2000 ≤ civilYear b.week := of_decide_eq_true hyear
  rw [mkBuckets, List.mem_append] at hb2
  rcases hb2 with hleft | hright
  · rw [List.mem_map] at hleft
    obtain ⟨p, hp, rfl⟩ := hleft
    rw [mem_groupCount] at hp
    obtain ⟨hmem, hcnt⟩ := hp
    refine ⟨hmem, hyear', ?_, ?_⟩
    · exact congrArg (fun n : Nat => (n : Int)) hcnt
    · show (((groupCount (weeksClosed issues)).lookup p.1).getD 0 : Int) = _
      rw [lookup_groupCount]
      by_cases hc : p.1 ∈ weeksClosed issues
      · rw [if_pos hc]
        rfl
      · rw [if_neg hc]
        simp [List.count_eq_zero.mpr hc]
  · exfalso
    rw [List.mem_map] at hright
    obtain ⟨p, hp, rfl⟩ := hright
    have h0 : civilYear (0 : Int) = 1970 := by decide
    simp only [h0] at hyear'
    omega

/-- Rows of the final table are strictly increasing in their week column. -/
theorem tableOf_pairwise (issues : List Issue) :
    (tableOf issues).Pairwise (fun a b => a.week < b.week) := by
  rw [tableOf, yearFilter, mkBuckets, List.filter_append]
  have hright : (((groupCount (weeksClosed issues)).filter
      (fun p => ((groupCount (weeksOpened issues)).lookup p.1).isNone)).map
      (fun p => (⟨0, 0, (p.2 : Int)⟩ : WeekBucket))).filter
      (fun b => decide (2000 ≤ civilYear b.week)) = [] := by
    rw [List.filter_eq_nil_iff]
    intro b hbmem
    rw [List.mem_map] at hbmem
    obtain ⟨p, _, rfl⟩ := hbmem
    have h0 : ¬ (2000 ≤ civilYear (0 : Int)) := by decide
    simpa using h0
  rw [hright, List.append_nil, sortByWeek]
  have hpair : (((groupCount (weeksOpened issues)).map (fun p => (⟨p.1, (p.2 : Int),
      (((groupCount (weeksClosed issues)).lookup p.1).getD 0 : Nat)⟩ : WeekBucket))).filter
      (fun b => decide (2000 ≤ civilYear b.week))).Pairwise (fun a b => a.week < b.week) := by
    apply List.Pairwise.sublist (List.filter_sublist _)
    rw [List.pairwise_map]
    exact groupCount_pairwise _
  rw [List.Sorted.insertionSort_eq (hpair.imp (fun hab => le_of_lt hab))]
  exact hpair

/-! ### Claims about the weekly aggregation -/

/-- C2, counterexample: an issue created in the week of 2024-01-01 (day
19723) and closed in the week of 2024-01-08 (day 19730) yields a table whose
only row is the creation week; the closure-only week 19730 does not appear
with `opened = 0` — its joined row got the epoch week and was filtered out. -/
theorem closed_only_week_missing :
    aggregateIssues [⟨19723, "closed", some 19730⟩] = Except.ok [⟨19723, 1, 0⟩] ∧
    ([(⟨19723, 1, 0⟩ : WeekBucket)].all (fun b => b.week != 19730)) = true :=
  ⟨by decide, by decide⟩

/-- C2 (amended): every row of the aggregated table has an opened count equal
to the exact number of issues created within that week's 7-day span and a
closed count equal to the exact number of closed issues whose closure
timestamp falls within that span (so a missing side of the join reads as
zero); a week with closures but no creations, however, yields no output row at
all: its joined row's week-start becomes the epoch and the year-2000 filter
removes it. -/
theorem weekly_counts_exact (issues : List Issue) (t : List WeekBucket)
    (h : aggregateIssues issues = Except.ok t) :
    ∀ b ∈ t, b.issues_opened = ((issues.filter (createdInWeek b.week)).length : Int) ∧
      b.issues_closed = ((issues.filter (closedInWeek b.week)).length : Int) := by
  intro b hb
  rw [aggregateIssues_inv h] at hb
  obtain ⟨hmem, _, hop, hcl⟩ := mem_tableOf hb
  have hwk : (b.week + 3) % 7 = 0 := by
    rw [weeksOpened, List.mem_map] at hmem
    obtain ⟨i, _, hi⟩ := hmem
    rw [← hi]
    exact mondayOf_mod i.createdAt
  exact ⟨by rw [hop, count_weeksOpened hwk], by rw [hcl, count_weeksClosed hwk]⟩

/-- Witness for `weekly_counts_exact` on a two-issue input whose single row
counts two creations and one closure. -/
theorem weekly_counts_exact_witness :
    (⟨19730, 2, 1⟩ : WeekBucket).issues_opened =
      ((([⟨19730, "open", none⟩, ⟨19731, "closed", some 19732⟩] : List Issue).filter
        (createdInWeek (⟨19730, 2, 1⟩ : WeekBucket).week)).length : Int) ∧
    (⟨19730, 2, 1⟩ : WeekBucket).issues_closed =
      ((([⟨19730, "open", none⟩, ⟨19731, "closed", some 19732⟩] : List Issue).filter
        (closedInWeek (⟨19730, 2, 1⟩ : WeekBucket).week)).length : Int) :=
  weekly_counts_exact [⟨19730, "open", none⟩, ⟨19731, "closed", some 19732⟩]
    [⟨19730, 2, 1⟩] (by decide) ⟨19730, 2, 1⟩ (by decide)

/-- C3: every week-start in the aggregated output is the creation week of
some input issue; a calendar week containing only closures contributes no row
(its joined row's null week-start becomes the 1970 epoch after `fillna(0)` and
the year-2000 filter removes it), so such closures are silently absent. -/
theorem output_weeks_from_creations (issues : List Issue) (t : List WeekBucket)
    (h : aggregateIssues issues = Except.ok t) :
    ∀ b ∈ t, ∃ i ∈ issues, mondayOf i.createdAt = b.week := by
  intro b hb
  rw [aggregateIssues_inv h] at hb
  have hmem := (mem_tableOf hb).1
  rw [weeksOpened, List.mem_map] at hmem
  exact hmem

/-- Witness for `output_weeks_from_creations`: an issue closed two weeks
after creation leaves only the creation week in the output. -/
theorem output_weeks_from_creations_witness :
    ∃ i ∈ ([⟨19723, "closed", some 19737⟩] : List Issue),
      mondayOf i.createdAt = (⟨19723, 1, 0⟩ : WeekBucket).week :=
  output_weeks_from_creations [⟨19723, "closed", some 19737⟩] [⟨19723, 1, 0⟩]
    (by decide) ⟨19723, 1, 0⟩ (by decide)

/-- C9: aggregated rows have pairwise distinct week-starts in strictly
ascending order, non-negative counts, and week-start years of at least 2000;
and the synthetic issue created 1999-01-01 (day 10592) produces no output row
at all. -/
theorem table_invariants :
    (∀ (issues : List Issue) (t : List WeekBucket), aggregateIssues issues = Except.ok t →
      t.Pairwise (fun a b => a.week < b.week) ∧
      (∀ b ∈ t, 0 ≤ b.issues_opened ∧ 0 ≤ b.issues_closed) ∧
      (∀ b ∈ t, 2000 ≤ civilYear b.week)) ∧
    aggregateIssues [⟨10592, "open", none⟩] = Except.ok [] := by
  constructor
  · intro issues t h
    obtain rfl : t = tableOf issues := aggregateIssues_inv h
    refine ⟨tableOf_pairwise issues, ?_, ?_⟩
    · intro b hb
      obtain ⟨_, _, hop, hcl⟩ := mem_tableOf hb
      rw [hop, hcl]
      exact ⟨Int.natCast_nonneg _, Int.natCast_nonneg _⟩
    · intro b hb
      exact (mem_tableOf hb).2.1
  · decide

/-- Witness for `table_invariants` on a two-week input. -/
theorem table_invariants_witness :
    ([⟨19723, 1, 0⟩, ⟨19730, 1, 1⟩] : List WeekBucket).Pairwise (fun a b => a.week < b.week) :=
  (table_invariants.1 [⟨19723, "open", none⟩, ⟨19730, "closed", some 19733⟩]
    [⟨19723, 1, 0⟩, ⟨19730, 1, 1⟩] (by decide)).1

/-- Re-running `weekly_analysis` on the frame it has already mutated returns
the very same frame and table: the `week` column assignment is idempotent and
both series depend only on the untouched data columns. -/
theorem weekly_analysis_fixed (issues : List Issue) :
    weekly_analysis ⟨true, true, true, issues.map rowOf⟩ =
      Except.ok (⟨true, true, true, issues.map rowOf⟩, tableOf issues) := by
  simp only [weekly_analysis, Bool.true_eq_false, if_false]
  rw [map_mutate_rowOf, openedSeries_eq, closedSeries_eq, tableOf]

/-- C10: the aggregation is idempotent — a second run of `weekly_analysis`
over the same (now mutated) source frame yields exactly the table of the
first run, in the same order. -/
theorem weekly_analysis_idempotent (issues : List Issue) (df : DataFrame)
    (t : List WeekBucket) (h : weekly_analysis (mkFrame issues) = Except.ok (df, t)) :
    weekly_analysis df = Except.ok (df, t) := by
  have hne : issues ≠ [] := by
    rintro rfl
    have hval : weekly_analysis (mkFrame ([] : List Issue)) =
        Except.error "created_at column not found in DataFrame" := rfl
    rw [hval] at h
    exact absurd h (fun hh => nomatch hh)
  rw [weekly_analysis_mkFrame hne] at h
  have h2 := (Except.ok.injEq _ _).mp h
  rw [Prod.mk.injEq] at h2
  obtain ⟨h3, h4⟩ := h2
  rw [← h3, ← h4]
  exact weekly_analysis_fixed issues

/-- Witness for `weekly_analysis_idempotent` on a one-issue input. -/
theorem weekly_analysis_idempotent_witness :
    weekly_analysis ⟨true, true, true, [⟨19723, "open", none, some 19723⟩]⟩ =
      Except.ok (⟨true, true, true, [⟨19723, "open", none, some 19723⟩]⟩, [⟨19723, 1, 0⟩]) :=
  weekly_analysis_idempotent [⟨19723, "open", none⟩]
    ⟨true, true, true, [⟨19723, "open", none, some 19723⟩]⟩ [⟨19723, 1, 0⟩] (by decide)
